import Mathlib

/-!
Verification development for the GitFathom repository (a VS Code extension that
generates Conventional-Commits-style commit messages via LLM providers).

The definitions below are a shallow embedding of the TypeScript sources:
  * `src/ai.ts`    — commit sanitizer, provider request adapter, header/query masking
  * `src/config.ts`— base-URL / request-path resolution
  * `src/prompt.ts` and the feature-complete prompt-builder variant — user prompt assembly

Strings are modelled as Lean `String` (lists of Unicode scalar values).  The
JavaScript regular expressions of the source are translated into explicit,
executable character-list scanners that mirror the backtracking behaviour of the
original patterns on the relevant inputs.  JavaScript `\p{L}\p{N}` (Unicode
letter/number) is approximated by an explicit range predicate covering the
scripts the program works with (ASCII, Latin-1/Extended, Greek, Cyrillic, CJK,
kana, Hangul, fullwidth forms); emoji and other symbols are outside the ranges,
as in the source.  String lengths are measured in scalar values rather than
UTF-16 code units.
-/

set_option maxRecDepth 4096

namespace GitFathom

/-- Characters that JavaScript `\s` (and `String.prototype.trim`) treats as whitespace. -/
def isJsWhitespace (c : Char) : Bool :=
  let n := c.toNat
  n == 0x20 || n == 0x09 || n == 0x0A || n == 0x0D || n == 0x0B || n == 0x0C ||
  n == 0xA0 || n == 0x1680 || (decide (0x2000 ≤ n) && decide (n ≤ 0x200A)) ||
  n == 0x2028 || n == 0x2029 || n == 0x202F || n == 0x205F || n == 0x3000 || n == 0xFEFF

/-- Line terminators, which the JavaScript `.` (without the `s` flag) does not match. -/
def isLineTerminator (c : Char) : Bool :=
  let n := c.toNat
  n == 0x0A || n == 0x0D || n == 0x2028 || n == 0x2029

def isAsciiLetter (c : Char) : Bool :=
  (decide (0x41 ≤ c.toNat) && decide (c.toNat ≤ 0x5A)) ||
  (decide (0x61 ≤ c.toNat) && decide (c.toNat ≤ 0x7A))

def isAsciiDigit (c : Char) : Bool :=
  decide (0x30 ≤ c.toNat) && decide (c.toNat ≤ 0x39)

/-- JavaScript `\w` (used for the `\b` word boundary): ASCII letters, digits, underscore. -/
def isJsWordChar (c : Char) : Bool :=
  isAsciiLetter c || isAsciiDigit c || c == '_'

def backquoteChar : Char := Char.ofNat 96

def singleQuoteChar : Char := Char.ofNat 39

def doubleQuoteChar : Char := Char.ofNat 34

def fullwidthColon : Char := Char.ofNat 0xFF1A

/-- The character class `['"`]` of the candidate-cleanup regexes. -/
def isQuoteChar (c : Char) : Bool :=
  c == singleQuoteChar || c == doubleQuoteChar || c == backquoteChar

def natInRange (lo hi n : Nat) : Bool :=
  decide (lo ≤ n) && decide (n ≤ hi)

/-- Approximation of the Unicode `\p{L}\p{N}` test `/[\p{L}\p{N}]/u` of `isValidCommitLine`
and `buildFallbackCommitLine`: explicit letter/number ranges covering ASCII, Latin-1 and
Latin Extended-A, Greek, Cyrillic, CJK (incl. extension A), kana, Hangul and fullwidth
alphanumerics.  Symbols and emoji (e.g. U+1F389) are outside every range, as in the source. -/
def isUnicodeLetterOrDigit (c : Char) : Bool :=
  let n := c.toNat
  natInRange 0x41 0x5A n || natInRange 0x61 0x7A n || natInRange 0x30 0x39 n ||
  (natInRange 0xC0 0xFF n && !(n == 0xD7) && !(n == 0xF7)) ||
  natInRange 0x100 0x17F n ||
  natInRange 0x391 0x3C9 n ||
  natInRange 0x400 0x4FF n ||
  natInRange 0x3041 0x3096 n || natInRange 0x30A1 0x30FA n ||
  natInRange 0x3400 0x4DBF n || natInRange 0x4E00 0x9FFF n ||
  natInRange 0xAC00 0xD7A3 n ||
  natInRange 0xFF10 0xFF19 n || natInRange 0xFF21 0xFF3A n || natInRange 0xFF41 0xFF5A n

/-- JavaScript `String.prototype.trim` on a character list. -/
def trimList (l : List Char) : List Char :=
  ((l.dropWhile isJsWhitespace).reverse.dropWhile isJsWhitespace).reverse

def jsTrim (s : String) : String :=
  String.mk (trimList s.data)

/-- Substring containment (used for the keyword tests of `inferType` and
`isSensitiveHeader`). -/
def hasSubList (needle : List Char) : List Char → Bool
  | [] => needle.isEmpty
  | l@(_ :: rest) => needle.isPrefixOf l || hasSubList needle rest

/-- ASCII-lowering of a string (JavaScript `toLowerCase`; the program only lowercases
ASCII header names and commit subjects, so the ASCII mapping is faithful here). -/
def asciiLowerStr (s : String) : String :=
  String.mk (s.data.map Char.toLower)

/-- First replace of `extractCandidates`: the global regex `/```[a-zA-Z]*\s*/g`
(a code-fence opener with optional language tag and following whitespace).  The
scanner is fuelled for structural recursion; every step consumes at least one
character, so fuel equal to the input length is always sufficient. -/
def stripFenceRunsFuel : Nat → List Char → List Char
  | 0, l => l
  | fuel + 1, l =>
    match l with
    | c1 :: c2 :: c3 :: rest =>
      if c1 = backquoteChar ∧ c2 = backquoteChar ∧ c3 = backquoteChar then
        stripFenceRunsFuel fuel ((rest.dropWhile isAsciiLetter).dropWhile isJsWhitespace)
      else
        c1 :: stripFenceRunsFuel fuel (c2 :: c3 :: rest)
    | c :: rest => c :: stripFenceRunsFuel fuel rest
    | [] => []

def stripFenceRuns (l : List Char) : List Char :=
  stripFenceRunsFuel l.length l

/-- Second replace of `extractCandidates`: the global regex `/```/g` (same fuelling). -/
def stripTripleBackticksFuel : Nat → List Char → List Char
  | 0, l => l
  | fuel + 1, l =>
    match l with
    | c1 :: c2 :: c3 :: rest =>
      if c1 = backquoteChar ∧ c2 = backquoteChar ∧ c3 = backquoteChar then
        stripTripleBackticksFuel fuel rest
      else
        c1 :: stripTripleBackticksFuel fuel (c2 :: c3 :: rest)
    | c :: rest => c :: stripTripleBackticksFuel fuel rest
    | [] => []

def stripTripleBackticks (l : List Char) : List Char :=
  stripTripleBackticksFuel l.length l

/-- `split(/\r?\n/)` on a character list. -/
def splitLinesAux : List Char → List Char → List (List Char)
  | acc, [] => [acc.reverse]
  | acc, '\r' :: '\n' :: rest => acc.reverse :: splitLinesAux [] rest
  | acc, '\n' :: rest => acc.reverse :: splitLinesAux [] rest
  | acc, c :: rest => splitLinesAux (c :: acc) rest

def splitLines (l : List Char) : List (List Char) :=
  splitLinesAux [] l

/-- Per-line replace of `/^['"`]+|['"`]+$/g`: remove a leading and a trailing run of
quote characters. -/
def stripQuoteEnds (l : List Char) : List Char :=
  ((l.dropWhile isQuoteChar).reverse.dropWhile isQuoteChar).reverse

/-- Case-insensitive (ASCII) literal prefix matcher, for the `/i`-flagged label regex. -/
def stripPrefixCI : List Char → List Char → Option (List Char)
  | [], rest => some rest
  | _ :: _, [] => none
  | p :: ps, c :: cs => if Char.toLower c == Char.toLower p then stripPrefixCI ps cs else none

/-- Exact literal prefix matcher. -/
def stripPrefixExact (pat l : List Char) : Option (List Char) :=
  if pat.isPrefixOf l then some (l.drop pat.length) else none

/-- Per-line replace of `/^commit\s*message\s*[:：]\s*/i`. -/
def stripCommitMessageLabel (l : List Char) : List Char :=
  match stripPrefixCI (("commit").data) l with
  | none => l
  | some r1 =>
    match stripPrefixCI (("message").data) (r1.dropWhile isJsWhitespace) with
    | none => l
    | some r2 =>
      match r2.dropWhile isJsWhitespace with
      | c :: r3 =>
        if c == ':' || c == fullwidthColon then r3.dropWhile isJsWhitespace else l
      | [] => l

/-- Per-line replace of `/^提交(?:信息|说明)\s*[:：]\s*/u`. -/
def stripChineseLabel (l : List Char) : List Char :=
  match stripPrefixExact (("提交").data) l with
  | none => l
  | some r1 =>
    match (stripPrefixExact (("信息").data) r1).orElse (fun _ => stripPrefixExact (("说明").data) r1) with
    | none => l
    | some r2 =>
      match r2.dropWhile isJsWhitespace with
      | c :: r3 =>
        if c == ':' || c == fullwidthColon then r3.dropWhile isJsWhitespace else l
      | [] => l

def cleanCandidateLine (l : List Char) : List Char :=
  trimList (stripChineseLabel (stripCommitMessageLabel (stripQuoteEnds l)))

/-- `extractCandidates` of `src/ai.ts`: strip code fences, trim, split into lines,
clean each line (quotes, "commit message:" labels), drop empty lines. -/
def extractCandidates (raw : String) : List String :=
  let cleaned := trimList (stripTripleBackticks (stripFenceRuns raw.data))
  (((splitLines cleaned).map cleanCandidateLine).filter (fun l => !l.isEmpty)).map String.mk

/-- Simulation of `\s*(.+)$` after a colon: the greedy whitespace run backtracks until
the `.+` capture is a non-empty run of non-line-terminator characters reaching the end.
Returns the `.+` capture. -/
def dotPlusDescend (l : List Char) : Nat → Option (List Char)
  | 0 => if !l.isEmpty && l.all (fun c => !(isLineTerminator c)) then some l else none
  | k+1 =>
    let rest := l.drop (k+1)
    if !rest.isEmpty && rest.all (fun c => !(isLineTerminator c)) then some rest
    else dotPlusDescend l k

def dotPlusSplit (l : List Char) : Option (List Char) :=
  dotPlusDescend l (l.takeWhile isJsWhitespace).length

/-- Parser for the regex fragment `[a-zA-Z]+(?:\([^)]+\))?!?`: maximal ASCII-letter run,
optional parenthesised scope, optional bang.  Returns the consumed part and the rest.
If a `(` is present but no well-formed `(scope)` follows, the whole fragment fails,
matching the backtracking behaviour of the source regexes (the following mandatory
colon can never match at the `(`). -/
def parseTypePart (l : List Char) : Option (List Char × List Char) :=
  let letters := l.takeWhile isAsciiLetter
  if letters.isEmpty then none
  else
    let r1 := l.drop letters.length
    let scopeOpt : Option (List Char × List Char) :=
      match r1 with
      | '(' :: t =>
        let inner := t.takeWhile (fun c => !(c == ')'))
        if inner.isEmpty then none
        else
          match t.drop inner.length with
          | ')' :: r => some ('(' :: (inner ++ [')']), r)
          | _ => none
      | _ => some ([], r1)
    match scopeOpt with
    | none => none
    | some (sc, r2) =>
      match r2 with
      | '!' :: r3 => some ((letters ++ sc) ++ ['!'], r3)
      | _ => some (letters ++ sc, r2)

/-- Does `/[a-zA-Z]+(?:\([^)]+\))?!?\s*[:：]\s*.+$/u` match at the start of `l`
(extending to the end of the string)? -/
def embeddedMatchesAt (l : List Char) : Bool :=
  match parseTypePart l with
  | none => false
  | some (_, r) =>
    match r.dropWhile isJsWhitespace with
    | c :: rest => (c == ':' || c == fullwidthColon) && (dotPlusSplit rest).isSome
    | [] => false

def boundaryBefore : Option Char → Bool
  | none => true
  | some p => !(isJsWordChar p)

/-- Search of `value.match(/\b([a-zA-Z]+(?:\([^)]+\))?!?\s*[:：]\s*.+)$/u)`: the leftmost
word-boundary position from which the pattern matches to the end of the string; the
capture is the whole suffix. -/
def findEmbeddedFrom : Option Char → List Char → Option (List Char)
  | _, [] => none
  | prev, c :: rest =>
    if isAsciiLetter c && boundaryBefore prev && embeddedMatchesAt (c :: rest) then
      some (c :: rest)
    else
      findEmbeddedFrom (some c) rest

/-- Replace of `/^[-*]\s+/`. -/
def stripListBullet (l : List Char) : List Char :=
  match l with
  | c :: rest =>
    if c == '-' || c == '*' then
      match rest with
      | d :: _ => if isJsWhitespace d then rest.dropWhile isJsWhitespace else l
      | [] => l
    else l
  | [] => []

/-- Replace of `/^\d+[.)]\s+/`. -/
def stripNumberBullet (l : List Char) : List Char :=
  let ds := l.takeWhile isAsciiDigit
  if ds.isEmpty then l
  else
    match l.drop ds.length with
    | c :: rest =>
      if c == '.' || c == ')' then
        match rest with
        | d :: _ => if isJsWhitespace d then rest.dropWhile isJsWhitespace else l
        | [] => l
      else l
    | [] => l

/-- Replace of `/^([a-zA-Z]+(?:\([^)]+\))?!?)\s*:\s*/` by `"$1: "`. -/
def collapseTypeColon (l : List Char) : List Char :=
  match parseTypePart l with
  | none => l
  | some (tp, r) =>
    match r.dropWhile isJsWhitespace with
    | c :: rest =>
      if c == ':' then tp ++ (':' :: ' ' :: rest.dropWhile isJsWhitespace) else l
    | [] => l

/-- `normalizeCommitLine` of `src/ai.ts`. -/
def normalizeCommitLine (value : String) : String :=
  let v := value.data
  let embedded := (findEmbeddedFrom none v).getD v
  let strippedBullet := trimList (stripNumberBullet (stripListBullet embedded))
  let normalizedColon := strippedBullet.map (fun c => if c == fullwidthColon then ':' else c)
  let collapsedPrefix := collapseTypeColon normalizedColon
  String.mk (trimList collapsedPrefix)

/-- The localized-type rule table of `normalizeLocalizedType` (source order preserved). -/
def localizedMapping : List (List String × String) :=
  [(["新增", "添加", "新功能", "功能"], "feat"),
   (["修复", "修正", "解决"], "fix"),
   (["重构"], "refactor"),
   (["优化", "性能优化"], "perf"),
   (["文档"], "docs"),
   (["测试"], "test"),
   (["构建", "工程", "维护", "配置"], "chore"),
   (["回滚", "撤销"], "revert")]

/-- One alternative of a localized pattern `^(alt…)\s*[:：]\s*(.+)$`. -/
def tryLocalizedAlt (ty : String) (v : List Char) (alt : String) : Option String :=
  if alt.data.isPrefixOf v then
    match (v.drop alt.data.length).dropWhile isJsWhitespace with
    | c :: rest =>
      if c == ':' || c == fullwidthColon then
        match dotPlusSplit rest with
        | some subj => some (ty ++ ": " ++ String.mk (trimList subj))
        | none => none
      else none
    | [] => none
  else none

/-- `normalizeLocalizedType` of `src/ai.ts`: first matching table entry wins; within an
entry the alternation is tried left to right. -/
def normalizeLocalizedType (value : String) : String :=
  (localizedMapping.findSome?
    (fun entry => entry.1.findSome? (tryLocalizedAlt entry.2 value.data))).getD value

/-- Replace of `/^[a-zA-Z]+(?:\([^)]+\))?!?\s*[:：]\s*/u` (fallback subject extraction). -/
def stripTypeColonAffix (l : List Char) : List Char :=
  match parseTypePart l with
  | none => l
  | some (_, r) =>
    match r.dropWhile isJsWhitespace with
    | c :: rest =>
      if c == ':' || c == fullwidthColon then rest.dropWhile isJsWhitespace else l
    | [] => l

def containsAnyOf (lower : List Char) (pats : List String) : Bool :=
  pats.any (fun p => hasSubList p.data lower)

/-- `inferType` of `src/ai.ts`: ordered keyword-category lookup, defaulting to chore. -/
def inferType (subject : List Char) : String :=
  let lower := subject.map Char.toLower
  if containsAnyOf lower [("fix"), ("bug"), ("error"), ("修复"), ("修正"), ("解决")] then "fix"
  else if containsAnyOf lower [("feat"), ("add"), ("新增"), ("添加"), ("功能")] then "feat"
  else if containsAnyOf lower [("perf"), ("optimi"), ("性能"), ("提速"), ("加速")] then "perf"
  else if containsAnyOf lower [("refactor"), ("重构")] then "refactor"
  else if containsAnyOf lower [("doc"), ("readme"), ("文档")] then "docs"
  else if containsAnyOf lower [("test"), ("spec"), ("测试")] then "test"
  else if containsAnyOf lower [("revert"), ("回滚"), ("撤销")] then "revert"
  else "chore"

/-- `buildFallbackCommitLine` of `src/ai.ts`. -/
def buildFallbackCommitLine (candidates : List String) : Option String :=
  let cleanedList := candidates.map (fun v => trimList (stripNumberBullet (stripListBullet v.data)))
  match cleanedList.find? (fun v => v.any isUnicodeLetterOrDigit) with
  | none => none
  | some best =>
    let subject := trimList (stripQuoteEnds (stripTypeColonAffix best))
    if subject.isEmpty then none
    else some (inferType subject ++ ": " ++ String.mk subject)

/-- `isValidCommitLine` of `src/ai.ts`: `^([a-zA-Z]+(?:\([^)]+\))?!?):\s*(.+)$` with a
trimmed subject containing at least one Unicode letter or digit. -/
def isValidCommitLine (value : String) : Bool :=
  match parseTypePart value.data with
  | none => false
  | some (_, r) =>
    match r with
    | c :: rest =>
      if c == ':' then
        match dotPlusSplit rest with
        | some subj =>
          let st := trimList subj
          !st.isEmpty && st.any isUnicodeLetterOrDigit
        | none => false
      else false
    | [] => false

/-- The candidate-selection loop of `sanitizeCommitText`: first candidate whose
normalized+localized form validates. -/
def pickValidCandidate : List String → Option String
  | [] => none
  | c :: cs =>
    let localized := normalizeLocalizedType (normalizeCommitLine c)
    if isValidCommitLine localized then some localized else pickValidCandidate cs

/-- `sanitizeCommitText` of `src/ai.ts` (thrown errors modelled with `Except`). -/
def sanitizeCommitText (raw : String) : Except String String :=
  let candidates := extractCandidates raw
  if candidates.isEmpty then .error ("Generated commit message is empty.")
  else
    match pickValidCandidate candidates with
    | some v => .ok v
    | none =>
      match buildFallbackCommitLine candidates with
      | some fallback =>
        if isValidCommitLine fallback then .ok fallback
        else .error ("Generated commit message is invalid or missing subject.")
      | none => .error ("Generated commit message is invalid or missing subject.")

/-! ### Data model (`src/types.ts`) and configuration resolution (`src/config.ts`) -/

inductive Provider
  | openai
  | deepseek
  | gemini
  | kimi
  | glm
  | custom
deriving DecidableEq, Inhabited

inductive UiLanguage
  | zh
  | en
deriving DecidableEq, Inhabited

/-- `ExtensionConfig` of `src/types.ts`.  JavaScript numbers are modelled by `Rat`
(temperature) and `Nat` (counts/timeouts); `maxTokens : number | null` becomes
`Option Rat`.  The `extraHeaders` object is a key-value list (object keys are unique
and ordered in JavaScript). -/
structure ExtensionConfig where
  language : UiLanguage
  provider : Provider
  model : String
  apiKey : String
  baseUrl : String
  customRequestPath : String
  extraHeaders : List (String × String)
  temperature : Rat
  maxTokens : Option Rat
  requestTimeoutMs : Nat
  commandTimeoutMs : Nat
  includeOnlyStaged : Bool
  maxChangedFiles : Nat
  truncateDiff : Bool
  maxDiffBytes : Nat
  systemPrompt : String
  ruleTemplate : String
  additionalRules : String
  detailedOutput : Bool
  copyToClipboard : Bool
  debugView : Bool
deriving DecidableEq, Inhabited

structure ChangeSnapshot where
  status : String
  diff : String
  wasTruncated : Bool
  wasFileLimited : Bool
  totalChangedFiles : Nat
  includedChangedFiles : Nat
deriving DecidableEq, Inhabited

structure PromptPayload where
  systemPrompt : String
  userPrompt : String
deriving DecidableEq, Inhabited

/-- `stripTrailingSlashes` of `src/config.ts` (the replace of `/\/+$/`). -/
def stripTrailingSlashes (value : String) : String :=
  String.mk (value.data.reverse.dropWhile (fun c => c == '/')).reverse

/-- `resolveBaseUrl` of `src/config.ts`: a configured base URL (trailing slashes
stripped) wins; otherwise the provider's default base URL; `custom` has no default. -/
def resolveBaseUrl (config : ExtensionConfig) : String :=
  if config.baseUrl ≠ "" then stripTrailingSlashes config.baseUrl
  else
    match config.provider with
    | .custom => ""
    | .openai => "https://api.openai.com/v1"
    | .deepseek => "https://api.deepseek.com/v1"
    | .gemini => "https://generativelanguage.googleapis.com"
    | .kimi => "https://api.moonshot.cn/v1"
    | .glm => "https://open.bigmodel.cn/api/paas/v4"

/-- `String.prototype.startsWith('/')`. -/
def headIsSlash (s : String) : Bool :=
  match s.data with
  | c :: _ => c == '/'
  | [] => false

/-- `ensureLeadingSlash` of `src/config.ts`. -/
def ensureLeadingSlash (value : String) : String :=
  let trimmed := jsTrim value
  if trimmed = "" then ""
  else if headIsSlash trimmed then trimmed
  else "/" ++ trimmed

/-- `resolveRequestPath` of `src/config.ts`: a non-empty configured path (normalized to
a leading slash) wins; otherwise the default is `/chat/completions` for provider
`openai` and the empty string for every other provider. -/
def resolveRequestPath (provider : Provider) (configuredPath : String) : String :=
  let normalized := ensureLeadingSlash configuredPath
  if normalized ≠ "" then normalized
  else if provider = .openai then "/chat/completions" else ""

/-- `createOpenAiEndpoint` of `src/ai.ts`. -/
def createOpenAiEndpoint (baseUrl : String) (customPath : String) : String :=
  let normalizedBase := stripTrailingSlashes baseUrl
  if (("/chat/completions").data).isSuffixOf normalizedBase.data then normalizedBase
  else
    normalizedBase ++ (if headIsSlash customPath then customPath else "/" ++ customPath)

/-! ### Spec-side endpoint description (for the refinement statement of claim C2) -/

/-- Drop a trailing run of slashes, written recursively (spec-side helper). -/
def specDropTrailingSlashes : List Char → List Char
  | [] => []
  | c :: rest =>
    if c == '/' && rest.all (fun d => d == '/') then []
    else c :: specDropTrailingSlashes rest

/-- Spec-side description of the OpenAI-compatible endpoint, following the amended
wording: the base URL with trailing slashes stripped; if it already ends in
`/chat/completions` nothing is appended; otherwise the configured request path
(trimmed, normalized to a leading slash, defaulting to `/chat/completions` for
provider `openai` and to the empty path for the other providers) is appended, an
empty path contributing a single slash. -/
def specEndpoint (provider : Provider) (baseUrl configuredPath : String) : String :=
  let base := String.mk (specDropTrailingSlashes baseUrl.data)
  let trimmedPath := jsTrim configuredPath
  let defaulted :=
    if trimmedPath = "" then
      if provider = .openai then "/chat/completions" else ""
    else trimmedPath
  let path :=
    if defaulted = "" then ""
    else if headIsSlash defaulted then defaulted
    else "/" ++ defaulted
  if (("/chat/completions").data).isSuffixOf base.data then base
  else if path = "" then base ++ "/"
  else base ++ path

/-! ### Headers, masking and debug snapshots (`src/ai.ts`) -/

/-- `hasHeader` of `src/ai.ts`: case-insensitive key lookup. -/
def hasHeader (headers : List (String × String)) (keyToFind : String) : Bool :=
  headers.any (fun kv => asciiLowerStr kv.1 == asciiLowerStr keyToFind)

/-- JavaScript object-spread key update: existing key overwritten in place, new key
appended (`{...base, ...extras}` applied one extra entry at a time). -/
def setObjectKey (hs : List (String × String)) (key value : String) : List (String × String) :=
  if hs.any (fun kv => kv.1 == key) then
    hs.map (fun kv => if kv.1 == key then (key, value) else kv)
  else hs ++ [(key, value)]

def mergeHeaders (base extras : List (String × String)) : List (String × String) :=
  extras.foldl (fun acc kv => setObjectKey acc kv.1 kv.2) base

/-- `isSensitiveHeader` of `src/ai.ts`. -/
def isSensitiveHeader (key : String) : Bool :=
  let normalized := asciiLowerStr key
  normalized == "authorization" ||
  hasSubList (("api-key").data) normalized.data ||
  hasSubList (("token").data) normalized.data

/-- `maskSecret` of `src/ai.ts`: `Bearer ***` for bearer-shaped values, else `***`. -/
def maskSecret (value : String) : String :=
  let trimmed := jsTrim value
  if trimmed = "" then "***"
  else
    match stripPrefixCI (("bearer").data) trimmed.data with
    | some (c :: _) => if isJsWhitespace c then "Bearer ***" else "***"
    | _ => "***"

/-- `maskSensitiveHeaders` of `src/ai.ts`. -/
def maskSensitiveHeaders (headers : List (String × String)) : List (String × String) :=
  headers.map (fun kv => if isSensitiveHeader kv.1 then (kv.1, maskSecret kv.2) else kv)

/-- Endpoints are modelled structurally: the part before the query string plus the
list of query parameters the code constructs.  (The source stores the endpoint as one
string and re-parses it with `new URL`; the structural form corresponds to the
URL-parsing branch of `maskSensitiveQuery` for the well-formed URLs the code builds.) -/
structure EndpointUrl where
  base : String
  query : List (String × String)
deriving DecidableEq, Inhabited

/-- `URLSearchParams.set(name, "***")`: first occurrence overwritten, later
occurrences of the same name removed. -/
def setParamMasked : List (String × String) → String → List (String × String)
  | [], _ => []
  | kv :: rest, name =>
    if kv.1 == name then (name, "***") :: rest.filter (fun kv2 => !(kv2.1 == name))
    else kv :: setParamMasked rest name

/-- One step of `maskSensitiveQuery`: mask the parameter `name` if present. -/
def maskParamIfPresent (params : List (String × String)) (name : String) : List (String × String) :=
  if params.any (fun kv => kv.1 == name) then setParamMasked params name else params

/-- `maskSensitiveQuery` of `src/ai.ts` on the structural endpoint: the parameters
`key`, `api_key`, `token` are masked to `***` when present. -/
def maskSensitiveQuery (endpoint : EndpointUrl) : EndpointUrl :=
  { endpoint with
    query := (["key", "api_key", "token"]).foldl maskParamIfPresent endpoint.query }

/-- Request bodies of the two wire dialects (`src/ai.ts` lines 99-107 and 175-186). -/
inductive RequestBody
  | openAiChat (model systemPrompt userPrompt : String) (temperature : Rat)
      (maxTokensField : Option Rat)
  | geminiGenerate (mergedPrompt : String) (temperature : Rat) (maxOutputTokens : Option Rat)
deriving DecidableEq, Inhabited

/-- `AiDebugSnapshot` of `src/types.ts`.  The wall-clock `createdAt` timestamp is
abstracted to the empty string. -/
structure AiDebugSnapshot where
  createdAt : String
  provider : Provider
  model : String
  endpoint : EndpointUrl
  requestHeaders : List (String × String)
  requestBody : RequestBody
  responseStatus : Option Nat := none
  responseHeaders : Option (List (String × String)) := none
  responseBody : Option String := none
  extractedText : Option String := none
  normalizedCommitMessage : Option String := none
  error : Option String := none
deriving DecidableEq, Inhabited

/-- `createDebugSnapshot` of `src/ai.ts`: endpoint query and sensitive headers are
masked at snapshot-creation time. -/
def createDebugSnapshot (provider : Provider) (model : String) (endpoint : EndpointUrl)
    (requestHeaders : List (String × String)) (requestBody : RequestBody) : AiDebugSnapshot :=
  { createdAt := ""
    provider := provider
    model := model
    endpoint := maskSensitiveQuery endpoint
    requestHeaders := maskSensitiveHeaders requestHeaders
    requestBody := requestBody }

/-- `truncate` of `src/ai.ts` (length measured in Unicode scalar values). -/
def truncate (text : String) (maxLength : Nat) : String :=
  if text.length ≤ maxLength then text
  else String.mk (text.data.take maxLength) ++ "..."

/-! ### JSON values and provider response extraction -/

/-- Parsed JSON payloads (the result of the external `JSON.parse`). -/
inductive Json
  | null
  | jbool (b : Bool)
  | num (n : Rat)
  | str (s : String)
  | arr (items : List Json)
  | obj (fields : List (String × Json))

/-- Object field access (JSON.parse keeps the last duplicate key, hence the reversed
lookup); property access on non-objects yields `undefined`. -/
def jsonField : Json → String → Option Json
  | .obj fields, key => (fields.reverse.find? (fun kv => kv.1 == key)).map (fun kv => kv.2)
  | _, _ => none

/-- `x?.[0]`: first element of an array (indexing into non-array JSON values, e.g.
strings, is abstracted to `undefined`; the claims are insensitive to this). -/
def jsonIndex0 : Json → Option Json
  | .arr (x :: _) => some x
  | _ => none

/-- JavaScript `String(x)` on a JSON value, with `null` already collapsed to `""` by
the `?? ''` of the source (number formatting is abstracted). -/
def jsToDisplayString : Json → String
  | .null => ""
  | .jbool b => cond b "true" "false"
  | .num n => toString n
  | .str s => s
  | .arr items => String.intercalate "," (items.attach.map (fun x => jsToDisplayString x.1))
  | .obj _ => "[object Object]"
decreasing_by
  have hm := List.sizeOf_lt_of_mem x.2
  simp only [Json.arr.sizeOf_spec]
  omega

/-- One content part of an OpenAI-style array-valued `message.content`
(`typeof part === 'object' && part && 'text' in part ? String(part.text ?? '') : ''`). -/
def contentPartText (part : Json) : String :=
  match part with
  | .obj fields =>
    if fields.any (fun kv => kv.1 == "text") then
      jsToDisplayString ((jsonField part ("text")).getD .null)
    else ""
  | _ => ""

/-- Response-content extraction of `requestOpenAiCompatible`
(`choices[0].message.content`, string or content-part array). -/
def extractOpenAiContent (payload : Json) : Option String :=
  let contentOpt :=
    ((jsonField payload ("choices")).bind jsonIndex0).bind
      (fun choice => (jsonField choice ("message")).bind (fun m => jsonField m ("content")))
  match contentOpt with
  | some (.str s) => some s
  | some (.arr parts) =>
    let text := jsTrim (String.intercalate "\n" (parts.map contentPartText))
    if text ≠ "" then some text else none
  | _ => none

/-- One Gemini content part (`String(part.text ?? '')`). -/
def geminiPartText (part : Json) : String :=
  jsToDisplayString ((jsonField part ("text")).getD .null)

/-- Response-content extraction of `requestGemini` (`candidates[0].content.parts`),
`none` when the chain of fields is absent. -/
def extractGeminiText (payload : Json) : Option String :=
  let partsOpt :=
    (((jsonField payload ("candidates")).bind jsonIndex0).bind
      (fun c => jsonField c ("content"))).bind (fun c => jsonField c ("parts"))
  match partsOpt with
  | some (.arr parts) => some (jsTrim (String.intercalate "\n" (parts.map geminiPartText)))
  | _ => none

/-! ### The request flow (`generateCommitText` and both provider paths) -/

/-- Outcome of the single `fetch` of one invocation: either an HTTP response (with the
result of `JSON.parse` on its body supplied alongside, `none` meaning a parse failure)
or a rejected promise (network failure / timeout abort). -/
inductive Transport
  | response (status : Nat) (headers : List (String × String)) (body : String)
      (parsed : Option Json)
  | netError (message : String)

/-- Result of one `generateCommitText` invocation: success, a plain configuration
error thrown before any snapshot existed, or an `AiRequestError` carrying the
snapshot. -/
inductive GenResult
  | ok (commitMessage : String) (debug : AiDebugSnapshot)
  | configError (message : String)
  | requestError (message : String) (debug : AiDebugSnapshot)
deriving DecidableEq, Inhabited

/-- A run outcome together with how many network calls were attempted and how many
debug snapshots were created. -/
structure RunTrace where
  result : GenResult
  networkCalls : Nat
  snapshotsCreated : Nat
deriving DecidableEq, Inhabited

def snapshotOfResult : GenResult → Option AiDebugSnapshot
  | .ok _ d => some d
  | .requestError _ d => some d
  | .configError _ => none

def resultSucceeded : GenResult → Bool
  | .ok _ _ => true
  | _ => false

/-- `ensureConfig` of `src/ai.ts` (thrown message, or `none` when all preconditions
hold). -/
def ensureConfigError (config : ExtensionConfig) : Option String :=
  if config.model = "" then some ("Model is empty. Configure gitgathom.model.")
  else if config.provider = .gemini ∧ config.apiKey = "" then
    some ("Gemini requires API key. Configure gitgathom.apiKey or GEMINI_API_KEY.")
  else if config.provider ≠ .gemini ∧ config.apiKey = "" ∧
      (hasHeader config.extraHeaders ("authorization") ||
        hasHeader config.extraHeaders ("x-api-key")) = false then
    some ("No API credential found. Configure gitgathom.apiKey or provide Authorization/X-Api-Key in gitgathom.extraHeaders.")
  else if config.provider = .custom ∧ resolveBaseUrl config = "" then
    some ("Custom provider requires gitgathom.baseUrl.")
  else none

/-- Headers of the OpenAI-compatible request: `Content-Type` merged with the extra
headers, plus an injected bearer `Authorization` when a key is configured and no
authorization header is present. -/
def buildOpenAiHeaders (config : ExtensionConfig) : List (String × String) :=
  let headers := mergeHeaders [("Content-Type", "application/json")] config.extraHeaders
  if config.apiKey ≠ "" ∧ hasHeader headers ("authorization") = false then
    headers ++ [("Authorization", "Bearer " ++ config.apiKey)]
  else headers

/-- Headers of the Gemini request (no header-based credential injection). -/
def buildGeminiHeaders (config : ExtensionConfig) : List (String × String) :=
  mergeHeaders [("Content-Type", "application/json")] config.extraHeaders

def isUriUnreserved (c : Char) : Bool :=
  isAsciiLetter c || isAsciiDigit c ||
  (['-', '_', '.', '!', '~', '*', Char.ofNat 39, '(', ')']).contains c

def hexDigitChar (n : Nat) : Char :=
  if n < 10 then Char.ofNat (48 + n) else Char.ofNat (55 + n)

/-- JavaScript `encodeURIComponent`: unreserved ASCII kept, everything else
percent-encoded byte-wise (UTF-8, uppercase hex). -/
def encodeURIComponent (s : String) : String :=
  String.mk (s.data.foldr
    (fun c acc =>
      if isUriUnreserved c then c :: acc
      else (String.utf8EncodeChar c).foldr
        (fun b acc2 => '%' :: hexDigitChar (b.toNat / 16) :: hexDigitChar (b.toNat % 16) :: acc2)
        acc)
    [])

def openAiEndpointUrl (config : ExtensionConfig) : EndpointUrl :=
  { base := createOpenAiEndpoint (resolveBaseUrl config) config.customRequestPath
    query := [] }

/-- The Gemini endpoint `<base>/v1beta/models/<model>:generateContent?key=<apiKey>`. -/
def geminiEndpointUrl (config : ExtensionConfig) : EndpointUrl :=
  { base := resolveBaseUrl config ++ "/v1beta/models/" ++ encodeURIComponent config.model ++
      ":generateContent"
    query := [("key", encodeURIComponent config.apiKey)] }

def isOkStatus (status : Nat) : Bool :=
  decide (200 ≤ status) && decide (status ≤ 299)

/-- `finalizeCommit` of `src/ai.ts`: record the extracted text, sanitize, and either
succeed or attach the sanitizer error to the snapshot. -/
def finalizeCommitRun (rawText : String) (debug : AiDebugSnapshot) : GenResult :=
  let debug1 := { debug with extractedText := some rawText }
  match sanitizeCommitText rawText with
  | .ok normalized => .ok normalized { debug1 with normalizedCommitMessage := some normalized }
  | .error msg => .requestError msg { debug1 with error := some msg }

/-- `requestOpenAiCompatible` of `src/ai.ts` composed with `finalizeCommit`,
parameterized by the transport outcome. -/
def requestOpenAiCompatibleRun (prompt : PromptPayload) (config : ExtensionConfig)
    (tr : Transport) : RunTrace :=
  let baseUrl := resolveBaseUrl config
  if baseUrl = "" then
    { result := .configError ("Missing base URL for OpenAI-compatible provider.")
      networkCalls := 0, snapshotsCreated := 0 }
  else
    let headers := buildOpenAiHeaders config
    let body := RequestBody.openAiChat config.model prompt.systemPrompt prompt.userPrompt
      config.temperature config.maxTokens
    let debug := createDebugSnapshot config.provider config.model
      { base := createOpenAiEndpoint baseUrl config.customRequestPath, query := [] } headers body
    match tr with
    | .netError msg =>
      { result := .requestError msg { debug with error := some msg }
        networkCalls := 1, snapshotsCreated := 1 }
    | .response status respHeaders respBody parsed =>
      let debug := { debug with
        responseStatus := some status
        responseHeaders := some respHeaders
        responseBody := some (truncate respBody 20000) }
      if isOkStatus status then
        match parsed with
        | none =>
          { result := .requestError ("Provider returned invalid JSON payload.") debug
            networkCalls := 1, snapshotsCreated := 1 }
        | some payload =>
          match extractOpenAiContent payload with
          | some text =>
            { result := finalizeCommitRun text debug, networkCalls := 1, snapshotsCreated := 1 }
          | none =>
            { result := .requestError ("Provider returned no message content.") debug
              networkCalls := 1, snapshotsCreated := 1 }
      else
        { result := .requestError ("HTTP " ++ toString status ++ ": " ++ truncate respBody 600)
            debug
          networkCalls := 1, snapshotsCreated := 1 }

/-- `requestGemini` of `src/ai.ts` composed with `finalizeCommit`. -/
def requestGeminiRun (prompt : PromptPayload) (config : ExtensionConfig)
    (tr : Transport) : RunTrace :=
  let baseUrl := resolveBaseUrl config
  if baseUrl = "" then
    { result := .configError ("Missing base URL for Gemini.")
      networkCalls := 0, snapshotsCreated := 0 }
  else
    let headers := buildGeminiHeaders config
    let mergedPrompt := prompt.systemPrompt ++ "\n\n" ++ prompt.userPrompt
    let body := RequestBody.geminiGenerate mergedPrompt config.temperature config.maxTokens
    let debug := createDebugSnapshot config.provider config.model (geminiEndpointUrl config)
      headers body
    match tr with
    | .netError msg =>
      { result := .requestError msg { debug with error := some msg }
        networkCalls := 1, snapshotsCreated := 1 }
    | .response status respHeaders respBody parsed =>
      let debug := { debug with
        responseStatus := some status
        responseHeaders := some respHeaders
        responseBody := some (truncate respBody 20000) }
      if isOkStatus status then
        match parsed with
        | none =>
          { result := .requestError ("Provider returned invalid JSON payload.") debug
            networkCalls := 1, snapshotsCreated := 1 }
        | some payload =>
          match extractGeminiText payload with
          | some text =>
            if text = "" then
              { result := .requestError ("Gemini returned no message content.") debug
                networkCalls := 1, snapshotsCreated := 1 }
            else
              { result := finalizeCommitRun text debug, networkCalls := 1, snapshotsCreated := 1 }
          | none =>
            { result := .requestError ("Gemini returned no message content.") debug
              networkCalls := 1, snapshotsCreated := 1 }
      else
        { result := .requestError ("HTTP " ++ toString status ++ ": " ++ truncate respBody 600)
            debug
          networkCalls := 1, snapshotsCreated := 1 }

/-- `generateCommitText` of `src/ai.ts`: precondition check, then provider dispatch. -/
def generateCommitTextRun (prompt : PromptPayload) (config : ExtensionConfig)
    (tr : Transport) : RunTrace :=
  match ensureConfigError config with
  | some msg => { result := .configError msg, networkCalls := 0, snapshotsCreated := 0 }
  | none =>
    if config.provider = .gemini then requestGeminiRun prompt config tr
    else requestOpenAiCompatibleRun prompt config tr

/-- The headers every snapshot of a run must carry (the masked pre-call headers). -/
def expectedRequestHeaders (config : ExtensionConfig) : List (String × String) :=
  if config.provider = .gemini then maskSensitiveHeaders (buildGeminiHeaders config)
  else maskSensitiveHeaders (buildOpenAiHeaders config)

/-- The request body every snapshot of a run must carry (built before the call). -/
def expectedRequestBody (prompt : PromptPayload) (config : ExtensionConfig) : RequestBody :=
  if config.provider = .gemini then
    .geminiGenerate (prompt.systemPrompt ++ "\n\n" ++ prompt.userPrompt) config.temperature
      config.maxTokens
  else
    .openAiChat config.model prompt.systemPrompt prompt.userPrompt config.temperature
      config.maxTokens

/-- The (masked) endpoint every snapshot of a run must carry. -/
def expectedEndpoint (config : ExtensionConfig) : EndpointUrl :=
  if config.provider = .gemini then maskSensitiveQuery (geminiEndpointUrl config)
  else maskSensitiveQuery (openAiEndpointUrl config)

/-- Spec-side reading of the invariant of claim C1: the snapshot's `error` field is
set exactly on the failing runs. -/
def errorSetIffFailed : GenResult → Bool
  | .ok _ d => d.error.isNone
  | .requestError _ d => d.error.isSome
  | .configError _ => true

/-! ### Prompt builder (the canonical, feature-complete `buildPrompt` variant) -/

def taskSection (detailed : Bool) : String :=
  if detailed then "Task: Create one detailed git commit message based on the repository changes."
  else "Task: Create one concise git commit message based on the repository changes."

def zhLanguageLine : String := "语言要求：输出必须为简体中文。"

def enLanguageLine : String := "Language requirement: Output must be in English."

def zhConstraintsSection (detailed : Bool) : String :=
  if detailed then
    "输出约束:\n" ++
    "- 输出 1 条完整提交信息（可多行）\n" ++
    "- 第一行格式：<gitmoji> <type>(可选scope): <subject>\n" ++
    "- 后续每一行以 \"  - \" 开头，描述 1 个具体改动点\n" ++
    "- 不要使用 markdown\n" ++
    "- 不要加引号\n" ++
    "- 冒号后必须有主题内容\n" ++
    "- 主题必须具体，避免只写“添加/修改/更新”等泛化词"
  else
    "输出约束:\n" ++
    "- 输出 1 条完整提交信息（可多行）\n" ++
    "- 第一行格式：<gitmoji> <type>(可选scope): <subject>\n" ++
    "- 后续每一行以 \"  - \" 开头，用一句话概括一个改动\n" ++
    "- 不要使用 markdown\n" ++
    "- 不要加引号\n" ++
    "- 冒号后必须有主题内容\n" ++
    "- 主题必须具体，避免只写“添加/修改/更新”等泛化词"

def enConstraintsSection (detailed : Bool) : String :=
  if detailed then
    "Output constraints:\n" ++
    "- Return one complete commit message (multiple lines allowed)\n" ++
    "- First line format: <gitmoji> <type>(optional-scope): <subject>\n" ++
    "- Each following line must start with \"  - \" and describe one concrete change\n" ++
    "- Do not use markdown\n" ++
    "- Do not wrap in quotes\n" ++
    "- Subject must exist after \":\"\n" ++
    "- Subject must be specific and not generic words like \"update\" or \"changes\""
  else
    "Output constraints:\n" ++
    "- Return one complete commit message (multiple lines allowed)\n" ++
    "- First line format: <gitmoji> <type>(optional-scope): <subject>\n" ++
    "- Each following line must start with \"  - \" and summarize one change in a single sentence\n" ++
    "- Do not use markdown\n" ++
    "- Do not wrap in quotes\n" ++
    "- Subject must exist after \":\"\n" ++
    "- Subject must be specific and not generic words like \"update\" or \"changes\""

/-- The changed-file-cap note of the feature-complete `buildPrompt`. -/
def fileLimitNote (included total : Nat) : String :=
  "Note: Changed files were limited to " ++ toString included ++ "/" ++ toString total ++
    " by maxChangedFiles."

def truncatedNote : String := "Note: Diff content was truncated for performance limits."

/-- The ordered prose sections of the user prompt (feature-complete `buildPrompt`
variant, which the specification designates as canonical). -/
def promptSections (snapshot : ChangeSnapshot) (config : ExtensionConfig) : List String :=
  [taskSection config.detailedOutput, "Rules:\n" ++ config.ruleTemplate] ++
  (if jsTrim config.additionalRules ≠ "" then
    ["Additional rules:\n" ++ jsTrim config.additionalRules] else []) ++
  (if config.language = .zh then
    [zhLanguageLine, zhConstraintsSection config.detailedOutput]
  else
    [enLanguageLine, enConstraintsSection config.detailedOutput]) ++
  (if jsTrim snapshot.status ≠ "" then ["Git status (short):\n" ++ snapshot.status] else []) ++
  ["Git diff:\n" ++ (if snapshot.diff = "" then "(no diff provided)" else snapshot.diff)] ++
  (if snapshot.wasFileLimited then
    [fileLimitNote snapshot.includedChangedFiles snapshot.totalChangedFiles] else []) ++
  (if snapshot.wasTruncated then [truncatedNote] else [])

/-- `buildPrompt`: sections joined by blank lines; the system prompt passes through. -/
def buildPrompt (snapshot : ChangeSnapshot) (config : ExtensionConfig) : PromptPayload :=
  { systemPrompt := config.systemPrompt
    userPrompt := String.intercalate "\n\n" (promptSections snapshot config) }

/-! ### Concrete values used by the witness and counterexample theorems -/

def demoPrompt : PromptPayload :=
  { systemPrompt := "You are an expert.", userPrompt := "Generate a commit message." }

def demoOpenAiConfig : ExtensionConfig :=
  { language := .zh
    provider := .openai
    model := "gpt-4o-mini"
    apiKey := "sk-demo-secret"
    baseUrl := ""
    customRequestPath := "/chat/completions"
    extraHeaders := []
    temperature := 0
    maxTokens := none
    requestTimeoutMs := 25000
    commandTimeoutMs := 12000
    includeOnlyStaged := false
    maxChangedFiles := 30
    truncateDiff := true
    maxDiffBytes := 120000
    systemPrompt := "sys"
    ruleTemplate := "rules"
    additionalRules := ""
    detailedOutput := true
    copyToClipboard := false
    debugView := false }

def demoGeminiConfig : ExtensionConfig :=
  { demoOpenAiConfig with
    provider := .gemini
    model := "gemini-2.0-flash"
    apiKey := "g-demo-secret"
    customRequestPath := ""
    extraHeaders := [("Authorization", "Bearer topsecret"), ("X-Api-Key", "header-secret")] }

def demoBadConfig : ExtensionConfig :=
  { demoOpenAiConfig with provider := .gemini, apiKey := "" }

def demoOkPayload : Json :=
  Json.obj [("choices", Json.arr
    [Json.obj [("message", Json.obj [("content", Json.str ("feat: add login"))])]])]

def demoOkTransport : Transport :=
  Transport.response 200 [("content-type", "application/json")]
    ("irrelevant raw body") (some demoOkPayload)

def demoFailTransport : Transport :=
  Transport.response 500 [] ("boom") none

def demoDebug : AiDebugSnapshot :=
  (snapshotOfResult (generateCommitTextRun demoPrompt demoOpenAiConfig demoOkTransport).result).getD
    default

def demoGeminiDebug : AiDebugSnapshot :=
  (snapshotOfResult
    (generateCommitTextRun demoPrompt demoGeminiConfig demoFailTransport).result).getD default

/-- The field invariant of claim C1, amended: every snapshot that reaches the caller
carries the masked request headers, the request body and the masked endpoint exactly
as they were computed before the network call, and on success the `error` field is
unset. -/
def snapshotPopulated (prompt : PromptPayload) (config : ExtensionConfig) : GenResult → Prop
  | .ok _ d =>
    d.requestHeaders = expectedRequestHeaders config ∧
    d.requestBody = expectedRequestBody prompt config ∧
    d.endpoint = expectedEndpoint config ∧ d.error = none
  | .requestError _ d =>
    d.requestHeaders = expectedRequestHeaders config ∧
    d.requestBody = expectedRequestBody prompt config ∧
    d.endpoint = expectedEndpoint config
  | .configError _ => True

/-! ## Theorems -/

theorem pickValidCandidate_isValid {cs : List String} {v : String}
    (h : pickValidCandidate cs = some v) : isValidCommitLine v = true := by
  induction cs with
  | nil => simp [pickValidCandidate] at h
  | cons c rest ih =>
    rw [pickValidCandidate] at h
    by_cases hv : isValidCommitLine (normalizeLocalizedType (normalizeCommitLine c)) = true
    · simp only [hv, if_true, Option.some.injEq] at h
      exact h ▸ hv
    · simp only [if_neg hv, eq_false_of_ne_true hv, if_false] at h
      exact ih h

theorem sanitizeCommitText_ok_valid {raw y : String}
    (h : sanitizeCommitText raw = .ok y) : isValidCommitLine y = true := by
  unfold sanitizeCommitText at h
  by_cases he : (extractCandidates raw).isEmpty = true
  · simp [he] at h
  · simp only [he, Bool.false_eq_true, if_false, eq_false_of_ne_true he] at h
    cases hp : pickValidCandidate (extractCandidates raw) with
    | some v =>
      rw [hp] at h
      simp only [Except.ok.injEq] at h
      exact h ▸ pickValidCandidate_isValid hp
    | none =>
      rw [hp] at h
      cases hf : buildFallbackCommitLine (extractCandidates raw) with
      | some fb =>
        rw [hf] at h
        by_cases hv : isValidCommitLine fb = true
        · simp only [hv, if_true, Except.ok.injEq] at h
          exact h ▸ hv
        · simp [hv] at h
      | none => simp [hf] at h

/-- C5: `sanitize("新增: 支持暗黑模式")` returns `"feat: 支持暗黑模式"` — the localized
Chinese type token is rewritten to the canonical keyword `feat` and the subject text
is preserved unchanged. -/
theorem c5_localized_type_rewritten :
    sanitizeCommitText ("新增: 支持暗黑模式") = .ok ("feat: 支持暗黑模式") := by
  rfl

/-- C6: `sanitize` applied to a code fence around `update stuff` returns
`"chore: update stuff"`: no primary candidate validates, the fallback path runs, and
the subject matches no keyword category, so the inferred type defaults to `chore`. -/
theorem c6_fallback_chore :
    sanitizeCommitText ("```\nupdate stuff\n```") = .ok ("chore: update stuff") := by
  rfl

/-- C7: `sanitize("feat: 🎉")` fails overall: the candidate's subject has no letter or
digit, no other candidate exists, and the fallback line is equally invalid, so the
operation ends in an error rather than a commit line. -/
theorem c7_emoji_subject_fails :
    sanitizeCommitText ("feat: 🎉") =
      .error ("Generated commit message is invalid or missing subject.") := by
  rfl

/-- C10 counterexample: the sanitizer is not idempotent on its own outputs.  On the
input `"feat: add `foo` \nx"` it succeeds with `"feat: add `foo`"`, but sanitizing
that output again strips the now-trailing backtick run and returns the different
line `"feat: add `foo"`. -/
theorem c10_counterexample :
    sanitizeCommitText ("feat: add `foo` \nx") = .ok ("feat: add `foo`") ∧
    sanitizeCommitText ("feat: add `foo`") = .ok ("feat: add `foo") ∧
    ("feat: add `foo" : String) ≠ ("feat: add `foo`") := by
  refine ⟨by rfl, by rfl, by decide⟩

/-- C10 (amended): the sanitizer is idempotent on every output that the candidate
extraction and the two normalization passes leave unchanged: if `sanitizeCommitText x`
succeeds with `y` and `y` is a fixpoint of `extractCandidates`, `normalizeCommitLine`
and `normalizeLocalizedType`, then sanitizing `y` succeeds and returns `y`. -/
theorem c10_amended_idempotent_on_stable (x y : String)
    (hx : sanitizeCommitText x = .ok y)
    (hext : extractCandidates y = [y])
    (hnorm : normalizeCommitLine y = y)
    (hloc : normalizeLocalizedType y = y) :
    sanitizeCommitText y = .ok y := by
  have hv := sanitizeCommitText_ok_valid hx
  unfold sanitizeCommitText
  rw [hext]
  simp [pickValidCandidate, hnorm, hloc, hv]

/-- C10 witness: a concrete run of the amended idempotence theorem. -/
theorem c10_witness :
    sanitizeCommitText ("feat: add login") = .ok ("feat: add login") :=
  c10_amended_idempotent_on_stable ("feat: add login") ("feat: add login")
    (by rfl) (by rfl) (by rfl) (by rfl)

theorem maskSecret_cases (v : String) :
    maskSecret v = "***" ∨ maskSecret v = "Bearer ***" := by
  by_cases h : jsTrim v = ""
  · simp [maskSecret, h]
  · simp only [maskSecret, h, if_false]
    split
    · split
      · exact .inr rfl
      · exact .inl rfl
    · exact .inl rfl

theorem maskSensitiveHeaders_mem {hs : List (String × String)} {k v : String}
    (hmem : (k, v) ∈ maskSensitiveHeaders hs) (hsens : isSensitiveHeader k = true) :
    v = "***" ∨ v = "Bearer ***" := by
  unfold maskSensitiveHeaders at hmem
  rcases List.mem_map.1 hmem with ⟨kv, hkv, heq⟩
  by_cases hk : isSensitiveHeader kv.1 = true
  · rw [if_pos hk] at heq
    have hv : v = maskSecret kv.2 := by
      have := congrArg Prod.snd heq
      simpa using this.symm
    exact hv ▸ maskSecret_cases kv.2
  · rw [if_neg hk] at heq
    subst heq
    exact absurd hsens hk

theorem setParamMasked_mem_eq {q : List (String × String)} {n k v : String}
    (h : (k, v) ∈ setParamMasked q n) (hk : k = n) : v = "***" := by
  induction q with
  | nil => simp [setParamMasked] at h
  | cons kv rest ih =>
    rw [setParamMasked] at h
    by_cases hh : (kv.1 == n) = true
    · rw [if_pos hh] at h
      rcases List.mem_cons.1 h with h1 | h2
      · exact congrArg Prod.snd h1
      · have := List.mem_filter.1 h2
        simp [hk] at this
    · rw [if_neg hh] at h
      rcases List.mem_cons.1 h with h1 | h2
      · exfalso
        apply hh
        rw [← h1]
        simp [hk]
      · exact ih h2

theorem setParamMasked_mem_ne {q : List (String × String)} {n k v : String}
    (h : (k, v) ∈ setParamMasked q n) (hk : k ≠ n) : (k, v) ∈ q := by
  induction q with
  | nil => simp [setParamMasked] at h
  | cons kv rest ih =>
    rw [setParamMasked] at h
    by_cases hh : (kv.1 == n) = true
    · rw [if_pos hh] at h
      rcases List.mem_cons.1 h with h1 | h2
      · exact absurd (congrArg Prod.fst h1) hk
      · exact List.mem_cons_of_mem _ (List.mem_of_mem_filter h2)
    · rw [if_neg hh] at h
      rcases List.mem_cons.1 h with h1 | h2
      · exact h1 ▸ List.mem_cons_self _ _
      · exact List.mem_cons_of_mem _ (ih h2)

theorem maskParamIfPresent_mem_eq {q : List (String × String)} {n k v : String}
    (h : (k, v) ∈ maskParamIfPresent q n) (hk : k = n) : v = "***" := by
  unfold maskParamIfPresent at h
  by_cases hp : (q.any fun kv => kv.1 == n) = true
  · rw [if_pos hp] at h
    exact setParamMasked_mem_eq h hk
  · rw [if_neg hp] at h
    exact absurd (List.any_eq_true.2 ⟨(k, v), h, by simp [hk]⟩) hp

theorem maskParamIfPresent_mem_ne {q : List (String × String)} {n k v : String}
    (h : (k, v) ∈ maskParamIfPresent q n) (hk : k ≠ n) : (k, v) ∈ q := by
  unfold maskParamIfPresent at h
  by_cases hp : (q.any fun kv => kv.1 == n) = true
  · rw [if_pos hp] at h
    exact setParamMasked_mem_ne h hk
  · rwa [if_neg hp] at h

theorem maskSensitiveQuery_masks {e : EndpointUrl} {k v : String}
    (h : (k, v) ∈ (maskSensitiveQuery e).query)
    (hk : k = "key" ∨ k = "api_key" ∨ k = "token") : v = "***" := by
  have h3 : (k, v) ∈
      maskParamIfPresent (maskParamIfPresent (maskParamIfPresent e.query ("key"))
        ("api_key")) ("token") := by
    simpa [maskSensitiveQuery, List.foldl] using h
  rcases hk with hk | hk | hk
  · have h2 := maskParamIfPresent_mem_ne h3 (by rw [hk]; decide)
    have h1 := maskParamIfPresent_mem_ne h2 (by rw [hk]; decide)
    exact maskParamIfPresent_mem_eq h1 hk
  · have h2 := maskParamIfPresent_mem_ne h3 (by rw [hk]; decide)
    exact maskParamIfPresent_mem_eq h2 hk
  · exact maskParamIfPresent_mem_eq h3 hk

theorem openai_path_populated (prompt : PromptPayload) (config : ExtensionConfig)
    (tr : Transport) (hp : ¬ config.provider = Provider.gemini) :
    snapshotPopulated prompt config (requestOpenAiCompatibleRun prompt config tr).result := by
  have hh : expectedRequestHeaders config = maskSensitiveHeaders (buildOpenAiHeaders config) := by
    simp [expectedRequestHeaders, hp]
  have hb : expectedRequestBody prompt config =
      .openAiChat config.model prompt.systemPrompt prompt.userPrompt config.temperature
        config.maxTokens := by
    simp [expectedRequestBody, hp]
  have he : expectedEndpoint config = maskSensitiveQuery (openAiEndpointUrl config) := by
    simp [expectedEndpoint, hp]
  unfold requestOpenAiCompatibleRun
  by_cases hbase : resolveBaseUrl config = ""
  · simp [hbase, snapshotPopulated]
  · simp only [hbase, if_false, if_neg hbase]
    cases tr with
    | netError msg =>
      simp [snapshotPopulated, hh, hb, he, createDebugSnapshot, openAiEndpointUrl]
    | response status respHeaders respBody parsed =>
      by_cases hok : isOkStatus status = true
      · simp only [hok, if_true]
        cases parsed with
        | none =>
          simp [snapshotPopulated, hh, hb, he, createDebugSnapshot, openAiEndpointUrl]
        | some payload =>
          cases hx : extractOpenAiContent payload with
          | none =>
            simp [hx, snapshotPopulated, hh, hb, he, createDebugSnapshot, openAiEndpointUrl]
          | some text =>
            simp only [hx]
            unfold finalizeCommitRun
            cases hs : sanitizeCommitText text with
            | ok normalized =>
              simp [hs, snapshotPopulated, hh, hb, he, createDebugSnapshot, openAiEndpointUrl]
            | error msg =>
              simp [hs, snapshotPopulated, hh, hb, he, createDebugSnapshot, openAiEndpointUrl]
      · simp only [hok, Bool.false_eq_true, if_false]
        simp [snapshotPopulated, hh, hb, he, createDebugSnapshot, openAiEndpointUrl, hok]

theorem gemini_path_populated (prompt : PromptPayload) (config : ExtensionConfig)
    (tr : Transport) (hp : config.provider = Provider.gemini) :
    snapshotPopulated prompt config (requestGeminiRun prompt config tr).result := by
  have hh : expectedRequestHeaders config = maskSensitiveHeaders (buildGeminiHeaders config) := by
    simp [expectedRequestHeaders, hp]
  have hb : expectedRequestBody prompt config =
      .geminiGenerate (prompt.systemPrompt ++ "\n\n" ++ prompt.userPrompt) config.temperature
        config.maxTokens := by
    simp [expectedRequestBody, hp]
  have he : expectedEndpoint config = maskSensitiveQuery (geminiEndpointUrl config) := by
    simp [expectedEndpoint, hp]
  unfold requestGeminiRun
  by_cases hbase : resolveBaseUrl config = ""
  · simp [hbase, snapshotPopulated]
  · simp only [hbase, if_false, if_neg hbase]
    cases tr with
    | netError msg =>
      simp [snapshotPopulated, hh, hb, he, createDebugSnapshot]
    | response status respHeaders respBody parsed =>
      by_cases hok : isOkStatus status = true
      · simp only [hok, if_true]
        cases parsed with
        | none =>
          simp [snapshotPopulated, hh, hb, he, createDebugSnapshot]
        | some payload =>
          cases hx : extractGeminiText payload with
          | none =>
            simp [hx, snapshotPopulated, hh, hb, he, createDebugSnapshot]
          | some text =>
            simp only [hx]
            by_cases ht : text = ""
            · simp [ht, snapshotPopulated, hh, hb, he, createDebugSnapshot]
            · simp only [ht, if_false, if_neg ht]
              unfold finalizeCommitRun
              cases hs : sanitizeCommitText text with
              | ok normalized =>
                simp [hs, snapshotPopulated, hh, hb, he, createDebugSnapshot]
              | error msg =>
                simp [hs, snapshotPopulated, hh, hb, he, createDebugSnapshot]
      · simp only [hok, Bool.false_eq_true, if_false]
        simp [snapshotPopulated, hh, hb, he, createDebugSnapshot, hok]

theorem run_snapshotPopulated (prompt : PromptPayload) (config : ExtensionConfig)
    (tr : Transport) :
    snapshotPopulated prompt config (generateCommitTextRun prompt config tr).result := by
  unfold generateCommitTextRun
  cases hc : ensureConfigError config with
  | some msg => simp [snapshotPopulated]
  | none =>
    by_cases hp : config.provider = Provider.gemini
    · simp only [hp, if_true, if_pos hp]
      exact gemini_path_populated prompt config tr hp
    · simp only [hp, if_false, if_neg hp]
      exact openai_path_populated prompt config tr hp

/-- C1 (amended): whenever `generateCommitText` creates a debug snapshot, the snapshot
that reaches the caller — inside the result on success, attached to the request error
on failure — carries `requestHeaders`, `requestBody` and the masked endpoint exactly as
computed before the network call, and its `error` field is never set on a successful
run (it is set only when the operation failed).  The converse direction of the original
claim (error set on every failure) is refuted by `c1_counterexample`. -/
theorem c1_snapshot_invariant (prompt : PromptPayload) (config : ExtensionConfig)
    (tr : Transport) :
    snapshotPopulated prompt config (generateCommitTextRun prompt config tr).result :=
  run_snapshotPopulated prompt config tr

/-- C1 counterexample: a run that fails with HTTP 500 yields a request error whose
attached snapshot has `error` unset, so "`error` is set if and only if the operation
failed" is false on the code (protocol failures are thrown as request errors without
writing the snapshot's `error` field). -/
theorem c1_counterexample :
    resultSucceeded
      (generateCommitTextRun demoPrompt demoOpenAiConfig demoFailTransport).result = false ∧
    errorSetIffFailed
      (generateCommitTextRun demoPrompt demoOpenAiConfig demoFailTransport).result = false := by
  refine ⟨by rfl, by rfl⟩

/-- C3: for every run that hands a debug snapshot to the caller (success or failure),
every request header whose name is sensitive (exactly `authorization`, or containing
`api-key` or `token`, case-insensitively) is stored masked as `***` or `Bearer ***`,
and every `key`/`api_key`/`token` query parameter of the stored endpoint is `***` —
in particular also when the configuration's extra headers carry `Authorization` or
`X-Api-Key` values. -/
theorem c3_no_unmasked_credential (prompt : PromptPayload) (config : ExtensionConfig)
    (tr : Transport) (d : AiDebugSnapshot)
    (h : snapshotOfResult (generateCommitTextRun prompt config tr).result = some d) :
    (∀ k v, (k, v) ∈ d.requestHeaders → isSensitiveHeader k = true →
      v = "***" ∨ v = "Bearer ***") ∧
    (∀ k v, (k, v) ∈ d.endpoint.query → (k = "key" ∨ k = "api_key" ∨ k = "token") →
      v = "***") := by
  have hs := run_snapshotPopulated prompt config tr
  cases hr : (generateCommitTextRun prompt config tr).result with
  | configError m =>
    rw [hr] at h
    simp [snapshotOfResult] at h
  | ok m dd =>
    rw [hr] at h hs
    simp only [snapshotOfResult, Option.some.injEq] at h
    subst h
    obtain ⟨h1, _, h3, _⟩ := hs
    constructor
    · intro k v hm hsen
      rw [h1] at hm
      unfold expectedRequestHeaders at hm
      by_cases hp : config.provider = Provider.gemini
      · rw [if_pos hp] at hm; exact maskSensitiveHeaders_mem hm hsen
      · rw [if_neg hp] at hm; exact maskSensitiveHeaders_mem hm hsen
    · intro k v hm hks
      rw [h3] at hm
      unfold expectedEndpoint at hm
      by_cases hp : config.provider = Provider.gemini
      · rw [if_pos hp] at hm; exact maskSensitiveQuery_masks hm hks
      · rw [if_neg hp] at hm; exact maskSensitiveQuery_masks hm hks
  | requestError m dd =>
    rw [hr] at h hs
    simp only [snapshotOfResult, Option.some.injEq] at h
    subst h
    obtain ⟨h1, _, h3⟩ := hs
    constructor
    · intro k v hm hsen
      rw [h1] at hm
      unfold expectedRequestHeaders at hm
      by_cases hp : config.provider = Provider.gemini
      · rw [if_pos hp] at hm; exact maskSensitiveHeaders_mem hm hsen
      · rw [if_neg hp] at hm; exact maskSensitiveHeaders_mem hm hsen
    · intro k v hm hks
      rw [h3] at hm
      unfold expectedEndpoint at hm
      by_cases hp : config.provider = Provider.gemini
      · rw [if_pos hp] at hm; exact maskSensitiveQuery_masks hm hks
      · rw [if_neg hp] at hm; exact maskSensitiveQuery_masks hm hks

/-- C3 witness: a Gemini run whose extra headers carry an `Authorization` bearer value
and an `X-Api-Key`; the stored headers are masked, and the theorem applied to this run
confirms the masking of the stored `Authorization` header and of the endpoint's `key`
query parameter. -/
theorem c3_witness :
    ("Authorization", ("Bearer ***")) ∈ demoGeminiDebug.requestHeaders ∧
    ("key", ("***")) ∈ demoGeminiDebug.endpoint.query ∧
    (("Bearer ***" : String) = "***" ∨ ("Bearer ***" : String) = "Bearer ***") ∧
    ("***" : String) = "***" :=
  ⟨by decide, by decide,
   (c3_no_unmasked_credential demoPrompt demoGeminiConfig demoFailTransport demoGeminiDebug
      (by rfl)).1 ("Authorization") ("Bearer ***") (by decide) (by decide),
   (c3_no_unmasked_credential demoPrompt demoGeminiConfig demoFailTransport demoGeminiDebug
      (by rfl)).2 ("key") ("***") (by decide) (Or.inl rfl)⟩

/-- C4: for every configuration violating a precondition — empty model name, gemini
without an explicit API key, a non-gemini provider with neither an API key nor a
case-insensitive `Authorization`/`X-Api-Key` extra header, or a custom provider with
an empty resolved base URL — `generateCommitText` fails immediately with a
configuration error, with no network call attempted and no debug snapshot created. -/
theorem c4_precondition_rejects (prompt : PromptPayload) (config : ExtensionConfig)
    (tr : Transport)
    (h : config.model = "" ∨
      (config.provider = Provider.gemini ∧ config.apiKey = "") ∨
      (config.provider ≠ Provider.gemini ∧ config.apiKey = "" ∧
        hasHeader config.extraHeaders ("authorization") = false ∧
        hasHeader config.extraHeaders ("x-api-key") = false) ∨
      (config.provider = Provider.custom ∧ resolveBaseUrl config = "")) :
    (∃ msg, (generateCommitTextRun prompt config tr).result = .configError msg) ∧
    (generateCommitTextRun prompt config tr).networkCalls = 0 ∧
    (generateCommitTextRun prompt config tr).snapshotsCreated = 0 := by
  have hx : ∃ m, ensureConfigError config = some m := by
    unfold ensureConfigError
    by_cases h1 : config.model = ""
    · rw [if_pos h1]; exact ⟨_, rfl⟩
    · rw [if_neg h1]
      by_cases h2 : config.provider = Provider.gemini ∧ config.apiKey = ""
      · rw [if_pos h2]; exact ⟨_, rfl⟩
      · rw [if_neg h2]
        by_cases h3 : config.provider ≠ Provider.gemini ∧ config.apiKey = "" ∧
            (hasHeader config.extraHeaders ("authorization") ||
              hasHeader config.extraHeaders ("x-api-key")) = false
        · rw [if_pos h3]; exact ⟨_, rfl⟩
        · rw [if_neg h3]
          by_cases h4 : config.provider = Provider.custom ∧ resolveBaseUrl config = ""
          · rw [if_pos h4]; exact ⟨_, rfl⟩
          · exfalso
            rcases h with h | h | h | h
            · exact h1 h
            · exact h2 h
            · exact h3 ⟨h.1, h.2.1, by simp [h.2.2.1, h.2.2.2]⟩
            · exact h4 h
  obtain ⟨m, hm⟩ := hx
  refine ⟨⟨m, ?_⟩, ?_, ?_⟩ <;> simp [generateCommitTextRun, hm]

/-- C4 witness: provider gemini with an empty API key is rejected before any network
call, with no snapshot created. -/
theorem c4_witness :
    (∃ msg, (generateCommitTextRun demoPrompt demoBadConfig demoOkTransport).result =
      .configError msg) ∧
    (generateCommitTextRun demoPrompt demoBadConfig demoOkTransport).networkCalls = 0 ∧
    (generateCommitTextRun demoPrompt demoBadConfig demoOkTransport).snapshotsCreated = 0 :=
  c4_precondition_rejects demoPrompt demoBadConfig demoOkTransport (Or.inr (Or.inl (by decide)))

/-- C8: on both provider paths, whenever an HTTP response with a non-2xx status is
received, the operation fails with a request error whose message embeds the status
code and the raw body truncated at 600 characters. -/
theorem c8_non_2xx_fails (prompt : PromptPayload) (config : ExtensionConfig)
    (status : Nat) (respHeaders : List (String × String)) (respBody : String)
    (parsed : Option Json)
    (hcfg : ensureConfigError config = none)
    (hbase : ¬ resolveBaseUrl config = "")
    (hstatus : isOkStatus status = false) :
    ∃ d, (generateCommitTextRun prompt config
        (Transport.response status respHeaders respBody parsed)).result =
      .requestError ("HTTP " ++ toString status ++ ": " ++ truncate respBody 600) d := by
  have hok : ¬ isOkStatus status = true := by simp [hstatus]
  unfold generateCommitTextRun
  rw [hcfg]
  by_cases hp : config.provider = Provider.gemini
  · rw [if_pos hp]
    unfold requestGeminiRun
    rw [if_neg hbase]
    simp only [if_neg hok]
    exact ⟨_, rfl⟩
  · rw [if_neg hp]
    unfold requestOpenAiCompatibleRun
    rw [if_neg hbase]
    simp only [if_neg hok]
    exact ⟨_, rfl⟩

/-- C8 witness: an HTTP 500 response with body `boom` fails with the embedded status
and excerpt. -/
theorem c8_witness :
    ∃ d, (generateCommitTextRun demoPrompt demoOpenAiConfig
        (Transport.response 500 [] ("boom") none)).result =
      .requestError ("HTTP " ++ toString 500 ++ ": " ++ truncate ("boom") 600) d :=
  c8_non_2xx_fails demoPrompt demoOpenAiConfig 500 [] ("boom") none (by rfl) (by decide) (by rfl)

theorem specDropTrailingSlashes_eq (l : List Char) :
    specDropTrailingSlashes l = (l.reverse.dropWhile (fun c => c == '/')).reverse := by
  induction l with
  | nil => rfl
  | cons c rest ih =>
    rw [specDropTrailingSlashes]
    by_cases h : ((c == '/') && rest.all (fun d => d == '/')) = true
    · rw [if_pos h]
      have hnil : ((c :: rest).reverse).dropWhile (fun c => c == '/') = [] := by
        rw [List.dropWhile_eq_nil_iff]
        intro x hx
        rw [List.mem_reverse] at hx
        rw [Bool.and_eq_true] at h
        rcases List.mem_cons.1 hx with rfl | hm
        · exact h.1
        · exact (List.all_eq_true.1 h.2) x hm
      rw [hnil]
      rfl
    · rw [if_neg h]
      rw [ih, List.reverse_cons, List.dropWhile_append]
      by_cases hnil : ((rest.reverse.dropWhile (fun c => c == '/')).isEmpty) = true
      · rw [if_pos hnil]
        have hre : rest.reverse.dropWhile (fun c => c == '/') = [] := List.isEmpty_iff.1 hnil
        have hrest : ∀ x ∈ rest, (x == '/') = true := by
          intro x hx
          exact List.dropWhile_eq_nil_iff.1 hre x (List.mem_reverse.2 hx)
        have hc : (c == '/') = false := by
          cases hcb : (c == '/')
          · rfl
          · exact absurd (by rw [hcb]; simp [List.all_eq_true.2 hrest]) h
        rw [hre]
        simp [List.dropWhile, hc]
      · rw [if_neg hnil]
        rw [List.reverse_append]
        simp

/-- C2 (amended): for every non-gemini provider, the OpenAI-compatible endpoint is the
base URL with trailing slashes stripped; if that base already ends in
`/chat/completions` nothing more is appended; otherwise the configured request path
(trimmed and normalized to a leading slash) is appended, where the path defaults to
`/chat/completions` for provider `openai` only and to the empty string for every other
non-gemini provider, an empty path contributing a single trailing slash.  The original
claim's universal `/chat/completions` default is refuted by `c2_counterexample`. -/
theorem c2_amended_endpoint (provider : Provider) (_hp : provider ≠ Provider.gemini)
    (baseUrl configuredPath : String) :
    createOpenAiEndpoint baseUrl (resolveRequestPath provider configuredPath) =
      specEndpoint provider baseUrl configuredPath := by
  have hbase : String.mk (specDropTrailingSlashes baseUrl.data) = stripTrailingSlashes baseUrl := by
    rw [specDropTrailingSlashes_eq]
    rfl
  have hslash : headIsSlash ("/chat/completions") = true := rfl
  have hempty : headIsSlash ("") = false := rfl
  have hslashapp : ∀ s : String, headIsSlash ("/" ++ s) = true := fun _ => rfl
  have happne : ∀ s : String, ("/" ++ s) ≠ "" := by
    intro s h
    have h2 : ('/' :: s.data) = ([] : List Char) := congrArg String.data h
    exact List.noConfusion h2
  unfold specEndpoint
  rw [hbase]
  unfold createOpenAiEndpoint resolveRequestPath ensureLeadingSlash
  by_cases ht : jsTrim configuredPath = ""
  · by_cases ho : provider = Provider.openai
    · simp [ht, ho, hslash]
    · simp [ht, ho, hempty]
  · by_cases hh : headIsSlash (jsTrim configuredPath) = true
    · simp [ht, hh]
    · simp [ht, hh, hslashapp, happne]

/-- C2 counterexample: for provider `deepseek` with no configured request path, the
resolved default path is empty — not `/chat/completions` — and the endpoint becomes
the base URL followed by a bare slash, without `/chat/completions` appended. -/
theorem c2_counterexample :
    resolveRequestPath Provider.deepseek ("") = "" ∧
    resolveRequestPath Provider.deepseek ("") ≠ "/chat/completions" ∧
    createOpenAiEndpoint ("https://api.deepseek.com/v1")
      (resolveRequestPath Provider.deepseek ("")) = "https://api.deepseek.com/v1/" ∧
    createOpenAiEndpoint ("https://api.deepseek.com/v1")
      (resolveRequestPath Provider.deepseek ("")) ≠
      "https://api.deepseek.com/v1" ++ "/chat/completions" := by
  refine ⟨by rfl, by decide, by rfl, by decide⟩

/-- C2 witness: the amended endpoint description evaluated for deepseek with an empty
configured path. -/
theorem c2_witness :
    createOpenAiEndpoint ("https://api.deepseek.com/v1")
      (resolveRequestPath Provider.deepseek ("")) =
    specEndpoint Provider.deepseek ("https://api.deepseek.com/v1") ("") :=
  c2_amended_endpoint Provider.deepseek (by decide) ("https://api.deepseek.com/v1") ("")

theorem fileLimitNote_ne_of_head {t : String} {a b : Nat} {c : Char}
    (hhead : t.data.head? = some c) (hc : c ≠ ('N')) : fileLimitNote a b ≠ t := by
  intro he
  have h1 : (fileLimitNote a b).data.head? = some ('N') := rfl
  rw [he, hhead] at h1
  exact hc (Option.some.inj h1)

theorem fileLimitNote_ne_truncatedNote {a b : Nat} : fileLimitNote a b ≠ truncatedNote := by
  intro he
  have h1 : (fileLimitNote a b).data.get? 6 = some ('C') := rfl
  rw [he] at h1
  have h2 : truncatedNote.data.get? 6 = some ('D') := rfl
  rw [h2] at h1
  exact absurd (Option.some.inj h1) (by decide)

/-- C9: the user prompt assembled by the canonical `buildPrompt` contains the
changed-file-cap note (stating the included and total changed-file counts) as one of
its sections if and only if the snapshot's `wasFileLimited` flag is set. -/
theorem c9_file_limit_note_iff (snapshot : ChangeSnapshot) (config : ExtensionConfig) :
    fileLimitNote snapshot.includedChangedFiles snapshot.totalChangedFiles ∈
      promptSections snapshot config ↔ snapshot.wasFileLimited = true := by
  constructor
  · intro h
    by_contra hno
    rw [Bool.not_eq_true] at hno
    unfold promptSections at h
    simp only [hno, Bool.false_eq_true, if_false] at h
    simp only [List.append_assoc, List.append_nil, List.nil_append] at h
    rcases List.mem_append.1 h with h | h
    · rcases List.mem_cons.1 h with h | h
      · exact fileLimitNote_ne_of_head (by cases config.detailedOutput <;> rfl) (by decide) h
      · rcases List.mem_cons.1 h with h | h
        · exact fileLimitNote_ne_of_head (t := "Rules:\n" ++ config.ruleTemplate)
            (c := ('R')) rfl (by decide) h
        · exact List.not_mem_nil _ h
    · rcases List.mem_append.1 h with h | h
      · by_cases ha : jsTrim config.additionalRules ≠ ""
        · rw [if_pos ha] at h
          rcases List.mem_cons.1 h with h | h
          · exact fileLimitNote_ne_of_head
              (t := "Additional rules:\n" ++ jsTrim config.additionalRules)
              (c := ('A')) rfl (by decide) h
          · exact List.not_mem_nil _ h
        · rw [if_neg ha] at h
          exact List.not_mem_nil _ h
      · rcases List.mem_append.1 h with h | h
        · by_cases hl : config.language = UiLanguage.zh
          · rw [if_pos hl] at h
            rcases List.mem_cons.1 h with h | h
            · exact fileLimitNote_ne_of_head (t := zhLanguageLine) (c := ('语')) rfl
                (by decide) h
            · rcases List.mem_cons.1 h with h | h
              · exact fileLimitNote_ne_of_head (c := ('输'))
                  (by cases config.detailedOutput <;> rfl) (by decide) h
              · exact List.not_mem_nil _ h
          · rw [if_neg hl] at h
            rcases List.mem_cons.1 h with h | h
            · exact fileLimitNote_ne_of_head (t := enLanguageLine) (c := ('L')) rfl
                (by decide) h
            · rcases List.mem_cons.1 h with h | h
              · exact fileLimitNote_ne_of_head (c := ('O'))
                  (by cases config.detailedOutput <;> rfl) (by decide) h
              · exact List.not_mem_nil _ h
        · rcases List.mem_append.1 h with h | h
          · by_cases hst : jsTrim snapshot.status ≠ ""
            · rw [if_pos hst] at h
              rcases List.mem_cons.1 h with h | h
              · exact fileLimitNote_ne_of_head
                  (t := "Git status (short):\n" ++ snapshot.status) (c := ('G')) rfl
                  (by decide) h
              · exact List.not_mem_nil _ h
            · rw [if_neg hst] at h
              exact List.not_mem_nil _ h
          · rcases List.mem_append.1 h with h | h
            · rcases List.mem_cons.1 h with h | h
              · exact fileLimitNote_ne_of_head
                  (t := "Git diff:\n" ++
                    (if snapshot.diff = "" then "(no diff provided)" else snapshot.diff))
                  (c := ('G')) rfl (by decide) h
              · exact List.not_mem_nil _ h
            · by_cases htr : snapshot.wasTruncated = true
              · rw [if_pos htr] at h
                rcases List.mem_cons.1 h with h | h
                · exact fileLimitNote_ne_truncatedNote h
                · exact List.not_mem_nil _ h
              · rw [if_neg htr] at h
                exact List.not_mem_nil _ h
  · intro h
    unfold promptSections
    simp [h]

end GitFathom

